import Mathlib

/-!
Shallow embedding of `mhealthx/io_data.py`: five facade operations over the
Synapse table service (read table + download referenced files, copy table,
write table, upload files as a file-handle table, concatenate tables and
store).  The remote service is modelled by an environment `SynEnv` supplying
query results, per-row file downloads and upload handles; each embedded
operation additionally returns the ordered trace of remote calls (`SynOp`)
it performs.  Pandas DataFrames are modelled as a list of named columns plus
an explicit row index.
-/

set_option autoImplicit false

namespace Mhealthx

/-- A cell of a pandas DataFrame: the missing marker `NaN`, a string value,
or an integer value (file IDs in file-reference columns are non-NaN values). -/
inductive Cell where
  | nan
  | str (s : String)
  | int (n : Int)
deriving DecidableEq, Repr

/-- A pandas DataFrame: an ordered list of named columns (each a list of
cells) together with an ordered row index of integer labels. -/
structure DataFrame where
  cols : List (String × List Cell)
  index : List Int
deriving DecidableEq, Repr

/-- Column headers of a DataFrame, in order. -/
def DataFrame.colNames (df : DataFrame) : List String :=
  df.cols.map Prod.fst

/-- `df.shape[0]`: the number of rows, i.e. the length of the row index. -/
def DataFrame.nRows (df : DataFrame) : Nat :=
  df.index.length

/-- Well-formedness: every column has one cell per row, and column headers
are distinct (as in a pandas DataFrame obtained from a Synapse query). -/
def DataFrame.WF (df : DataFrame) : Prop :=
  (∀ p ∈ df.cols, p.2.length = df.nRows) ∧ df.colNames.Nodup

/-- `table_data[column_name]`: look up a column by header; `none` models the
`KeyError` raised by pandas when the header is absent. -/
def getCol (df : DataFrame) (c : String) : Option (List Cell) :=
  (df.cols.find? (fun p => p.1 == c)).map Prod.snd

/-- The column under header `c`, defaulting to `[]` (used only when the
header is known to be present). -/
def getColD (df : DataFrame) (c : String) : List Cell :=
  (getCol df c).getD []

/-- A dynamically typed Python value, as far as `download_limit` is
concerned: `None`, an `int`, a `float` (payload irrelevant), a `bool` or a
`str`.  `type(v) != int` holds exactly for the non-`int` constructors
(`bool` is a distinct type from `int` for `type(...)`). -/
inductive PyVal where
  | none
  | int (n : Int)
  | float (payload : Int)
  | bool (b : Bool)
  | str (s : String)
deriving DecidableEq, Repr

/-- `type(v) == int` for a `PyVal`. -/
def PyVal.isIntType : PyVal → Bool
  | PyVal.int _ => true
  | _ => false

/-- The row bound actually used by the download loop of
`read_synapse_table_files`: the source replaces `download_limit` by
`table_data.shape[0]` whenever `type(download_limit) != int`. -/
def effectiveLimit (download_limit : PyVal) (nrows : Nat) : Int :=
  match download_limit with
  | PyVal.int n => n
  | _ => (nrows : Int)

/-- A Synapse column definition (`synapseclient.table.Column`):
a header and a column type such as `FILEHANDLEID`. -/
structure ColumnDef where
  name : String
  columnType : String
deriving DecidableEq, Repr

/-- `as_table_columns`: infer a Synapse column type from the cells of a
column (by its first non-missing cell). -/
def inferColumnType (col : List Cell) : String :=
  match col.find? (fun c => c != Cell.nan) with
  | some (Cell.int _) => "INTEGER"
  | some (Cell.str _) => "STRING"
  | _ => "DOUBLE"

/-- `synapseclient.table.as_table_columns(table_data)`: one column
definition per DataFrame column, in order. -/
def as_table_columns (table_data : DataFrame) : List ColumnDef :=
  table_data.cols.map (fun p => ⟨p.1, inferColumnType p.2⟩)

/-- Errors surfaced by the embedded operations: pandas `KeyError` for an
absent column header, the Synapse client's not-found error for an unknown
table ID, and the out-of-bounds error for a positional row access past the
end of a column. -/
inductive SynError where
  | keyError (c : String)
  | notFound (id : String)
  | indexError (i : Nat)
deriving DecidableEq, Repr

/-- One remote call performed by an operation, recorded in order. -/
inductive SynOp where
  | login
  | loginWith (username password : String)
  | get (id : String)
  | tableQuery (q : String)
  | downloadFile (tableId : String) (rowId : Nat) (column : String)
      (downloadLocation : String)
  | uploadFile (path : String)
  | storeSchema (name : String) (columns : List ColumnDef) (parent : String)
  | storeTable (name : String) (parent : String) (columns : List ColumnDef)
      (includeRowIdAndRowVersion : Option Bool) (data : DataFrame)
  | storeRowSet (columns : List ColumnDef) (rows : List (List String))
deriving DecidableEq, Repr

/-- `if username and password: syn.login(username, password) else syn.login()`. -/
def loginOp (username password : String) : SynOp :=
  if username ≠ "" ∧ password ≠ "" then SynOp.loginWith username password
  else SynOp.login

/-- The remote Synapse service as seen by this module: full query results
per table ID (`none` = unknown table), the result of
`downloadTableFile(schema, rowId, column, downloadLocation)` (`none` models
a falsy `fileinfo`, `some p` a `fileinfo` with local path `p`), and the
file-handle ID returned by `_chunkedUploadFile` for a local path. -/
structure SynEnv where
  tables : String → Option DataFrame
  downloadTableFile : String → Nat → String → String → Option String
  uploadHandle : String → String

/-- The inner row loop of `read_synapse_table_files` for one column: for
each row position, `NaN` records `None`; otherwise the file is downloaded
(`downloadFile` appears in the trace) and the local path — or `''` for a
falsy `fileinfo` — is recorded.  A position past the end of the column is
the out-of-bounds access `column_data[irow]`. -/
def rowLoop (env : SynEnv) (tid column_name out_path : String)
    (column_data : List Cell) :
    List Nat → Except SynError (List (Option String) × List SynOp)
  | [] => Except.ok ([], [])
  | irow :: rest =>
    match column_data.get? irow with
    | Option.none => Except.error (SynError.indexError irow)
    | some Cell.nan =>
      match rowLoop env tid column_name out_path column_data rest with
      | Except.error e => Except.error e
      | Except.ok (entries, ops) => Except.ok (Option.none :: entries, ops)
    | some _ =>
      let entry : Option String :=
        match env.downloadTableFile tid irow column_name out_path with
        | some p => some p
        | Option.none => some ""
      match rowLoop env tid column_name out_path column_data rest with
      | Except.error e => Except.error e
      | Except.ok (entries, ops) =>
        Except.ok (entry :: entries,
          SynOp.downloadFile tid irow column_name out_path :: ops)

/-- The outer column loop of `read_synapse_table_files`: look up each named
column (`KeyError` if absent) and run the row loop over
`range(download_limit)`. -/
def colLoop (env : SynEnv) (tid out_path : String) (df : DataFrame)
    (dl : Nat) :
    List String → Except SynError (List (List (Option String)) × List SynOp)
  | [] => Except.ok ([], [])
  | column_name :: rest =>
    match getCol df column_name with
    | Option.none => Except.error (SynError.keyError column_name)
    | some column_data =>
      match rowLoop env tid column_name out_path column_data
          (List.range dl) with
      | Except.error e => Except.error e
      | Except.ok (files_per_column, ops₁) =>
        match colLoop env tid out_path df dl rest with
        | Except.error e => Except.error e
        | Except.ok (downloaded, ops₂) =>
          Except.ok (files_per_column :: downloaded, ops₁ ++ ops₂)

/-- `read_synapse_table_files(synapse_table_id, column_names,
download_limit, out_path, username, password)`: log in, fetch the schema
and the full query result as a DataFrame; when `column_names` is non-empty,
resolve the file columns for row positions `0 .. download_limit - 1`
(with `download_limit` replaced by the row count when not an `int`).
Returns `(table_data, downloaded_files)` and the trace of remote calls. -/
def read_synapse_table_files (env : SynEnv) (synapse_table_id : String)
    (column_names : List String) (download_limit : PyVal)
    (out_path : String) (username : String) (password : String) :
    Except SynError
      ((DataFrame × List (List (Option String))) × List SynOp) :=
  match env.tables synapse_table_id with
  | Option.none => Except.error (SynError.notFound synapse_table_id)
  | some table_data =>
    let baseOps : List SynOp :=
      [loginOp username password, SynOp.get synapse_table_id,
       SynOp.tableQuery ("select * from " ++ synapse_table_id)]
    if column_names.isEmpty then
      Except.ok ((table_data, []), baseOps)
    else
      let dl : Int := effectiveLimit download_limit table_data.nRows
      match colLoop env synapse_table_id out_path table_data dl.toNat
          column_names with
      | Except.error e => Except.error e
      | Except.ok (downloaded_files, ops) =>
        Except.ok ((table_data, downloaded_files), baseOps ++ ops)

/-- `del table_data[remove_column]`: drop every column under this header,
raising `KeyError` when the header is absent. -/
def delColumn (table_data : DataFrame) (remove_column : String) :
    Except SynError DataFrame :=
  if table_data.cols.any (fun p => p.1 == remove_column) then
    Except.ok { table_data with
      cols := table_data.cols.filter (fun p => p.1 != remove_column) }
  else Except.error (SynError.keyError remove_column)

/-- `table_data.index = range(table_data.shape[0])`: renumber the row index
to the contiguous sequence `0 .. N-1`. -/
def reindexDf (table_data : DataFrame) : DataFrame :=
  { table_data with
    index := (List.range table_data.nRows).map Int.ofNat }

/-- `copy_synapse_table(synapse_table_id, synapse_project_id, table_name,
remove_columns, username, password)`: query the full source table, delete
each column named in `remove_columns` in order, renumber the row index,
derive a schema (`includeRowIdAndRowVersion=False`) and store the table
under the destination project. -/
def copy_synapse_table (env : SynEnv)
    (synapse_table_id synapse_project_id : String) (table_name : String)
    (remove_columns : List String) (username password : String) :
    Except SynError ((DataFrame × String × String) × List SynOp) :=
  match env.tables synapse_table_id with
  | Option.none => Except.error (SynError.notFound synapse_table_id)
  | some table_data₀ =>
    match (if remove_columns.isEmpty then Except.ok table_data₀
           else remove_columns.foldlM delColumn table_data₀) with
    | Except.error e => Except.error e
    | Except.ok td =>
      let table_data := reindexDf td
      Except.ok ((table_data, table_name, synapse_project_id),
        [loginOp username password,
         SynOp.tableQuery ("select * from " ++ synapse_table_id),
         SynOp.storeTable table_name synapse_project_id
           (as_table_columns table_data) (some false) table_data])

/-- `write_synapse_table(table_data, synapse_project_id, table_name,
username, password)`: renumber the row index, derive a schema
(`includeRowIdAndRowVersion=False`) and store the table.  Returns the trace
of remote calls (the Python function returns `None`). -/
def write_synapse_table (table_data : DataFrame)
    (synapse_project_id table_name : String) (username password : String) :
    List SynOp :=
  let td := reindexDf table_data
  [loginOp username password,
   SynOp.storeTable table_name synapse_project_id (as_table_columns td)
     (some false) td]

/-- `files_to_synapse_table(in_files, synapse_project_id, table_name,
column_name, username, password)`: upload each file in order to obtain a
file-handle ID, create a single-column `FILEHANDLEID` schema named
`column_name` under the project, and store one row per file handle. -/
def files_to_synapse_table (env : SynEnv) (in_files : List String)
    (synapse_project_id table_name column_name : String)
    (username password : String) : List SynOp :=
  let files_handles : List (List String) :=
    in_files.map (fun f => [env.uploadHandle f])
  let new_column_header : ColumnDef := ⟨column_name, "FILEHANDLEID"⟩
  loginOp username password ::
    (in_files.map SynOp.uploadFile ++
     [SynOp.storeSchema table_name [new_column_header] synapse_project_id,
      SynOp.storeRowSet [new_column_header] files_handles])

/-- Ordered union of row indices, keeping first occurrences (the index of a
column-wise outer concatenation when indices agree). -/
def indexUnion (xs ys : List Int) : List Int :=
  xs ++ ys.filter (fun y => decide (y ∉ xs))

/-- The row index of `pd.concat(frames, axis=1)`. -/
def concatIndex (frames : List DataFrame) : List Int :=
  frames.foldl (fun acc f => indexUnion acc f.index) []

/-- The cell of column `col` of frame `f` at row label `lab`, `NaN` when
the label is absent from `f`'s index. -/
def lookupCell (f : DataFrame) (col : List Cell) (lab : Int) : Cell :=
  match f.index.findIdx? (fun x => x == lab) with
  | some pos => col.getD pos Cell.nan
  | Option.none => Cell.nan

/-- `pd.concat(frames, axis=1)` (external pandas call): column-wise
concatenation aligned by row index — the result index is the ordered union
of the frame indices, every column of every frame is realigned to it,
and column headers are kept in order.  For frames sharing one common row
index this is exactly the pandas behaviour; the row index is reused, not
renumbered. -/
def pdConcat (frames : List DataFrame) : DataFrame :=
  let idx := concatIndex frames
  { cols := frames.flatMap (fun f =>
      f.cols.map (fun p => (p.1, idx.map (fun lab => lookupCell f p.2 lab))))
    index := idx }

/-- `concatenate_tables_to_synapse_table(frames, synapse_project_id,
table_name, username, password)`: concatenate the frames column-wise
(reusing the original row indices), derive a schema and store the result as
one new table.  Returns `(table_data, synapse_project_id)` and the trace. -/
def concatenate_tables_to_synapse_table (frames : List DataFrame)
    (synapse_project_id table_name : String) (username password : String) :
    (DataFrame × String) × List SynOp :=
  let table_data := pdConcat frames
  ((table_data, synapse_project_id),
   [loginOp username password,
    SynOp.storeTable table_name synapse_project_id
      (as_table_columns table_data) Option.none table_data])

/-! ### Characterisation of the download loop -/

/-- The entry recorded for row position `irow` of one file column: `None`
for the missing marker, otherwise the downloaded local path or `''`. -/
def entrySpec (env : SynEnv) (tid column_name out_path : String)
    (column_data : List Cell) (irow : Nat) : Option String :=
  match column_data.get? irow with
  | some Cell.nan => Option.none
  | _ =>
    match env.downloadTableFile tid irow column_name out_path with
    | some p => some p
    | Option.none => some ""

/-- The download call issued for row position `irow` of one file column,
if any: none for the missing marker. -/
def dlOpSpec (tid column_name out_path : String) (column_data : List Cell)
    (irow : Nat) : Option SynOp :=
  match column_data.get? irow with
  | some Cell.nan => Option.none
  | _ => some (SynOp.downloadFile tid irow column_name out_path)

theorem rowLoop_ok (env : SynEnv) (tid column_name out_path : String)
    (column_data : List Cell) (idxs : List Nat)
    (hb : ∀ i ∈ idxs, i < column_data.length) :
    rowLoop env tid column_name out_path column_data idxs =
      Except.ok
        (idxs.map (entrySpec env tid column_name out_path column_data),
         idxs.filterMap (dlOpSpec tid column_name out_path column_data)) := by
  induction idxs with
  | nil => rfl
  | cons i rest ih =>
    have hi : i < column_data.length := hb i (List.mem_cons_self i rest)
    have hrest : ∀ j ∈ rest, j < column_data.length :=
      fun j hj => hb j (List.mem_cons_of_mem i hj)
    have hcell : column_data[i]? = some column_data[i] :=
      List.getElem?_eq_getElem hi
    rcases hc : column_data[i] with _ | s | n <;>
      rw [hc] at hcell <;>
      simp [rowLoop, hcell, ih hrest, entrySpec, dlOpSpec]

theorem rowLoop_length (env : SynEnv) (tid column_name out_path : String)
    (column_data : List Cell) (idxs : List Nat)
    (entries : List (Option String)) (ops : List SynOp)
    (h : rowLoop env tid column_name out_path column_data idxs =
      Except.ok (entries, ops)) :
    entries.length = idxs.length := by
  induction idxs generalizing entries ops with
  | nil =>
    simp only [rowLoop] at h
    cases h
    rfl
  | cons i rest ih =>
    rw [rowLoop] at h
    cases hg : column_data.get? i with
    | none => rw [hg] at h; cases h
    | some cell =>
      rw [hg] at h
      cases cell <;>
        cases hr : rowLoop env tid column_name out_path column_data rest with
        | error e => rw [hr] at h; cases h
        | ok pr =>
          obtain ⟨es, ops₂⟩ := pr
          rw [hr] at h
          cases h
          simpa using ih _ _ hr

/-- The downloaded-files value produced for a list of requested columns:
one ordered sequence per column, one entry per row position below `dl`. -/
def colFilesSpec (env : SynEnv) (tid out_path : String) (df : DataFrame)
    (dl : Nat) (column_names : List String) : List (List (Option String)) :=
  column_names.map (fun c =>
    (List.range dl).map (entrySpec env tid c out_path (getColD df c)))

/-- The download calls issued for a list of requested columns, in order. -/
def colOpsSpec (tid out_path : String) (df : DataFrame) (dl : Nat)
    (column_names : List String) : List SynOp :=
  column_names.flatMap (fun c =>
    (List.range dl).filterMap (dlOpSpec tid c out_path (getColD df c)))

theorem getCol_mem (df : DataFrame) (c : String) (col : List Cell)
    (h : getCol df c = some col) : (c, col) ∈ df.cols := by
  unfold getCol at h
  cases hf : df.cols.find? (fun p => p.1 == c) with
  | none => rw [hf] at h; cases h
  | some p =>
    rw [hf] at h
    have hp := List.find?_some hf
    have hm : p ∈ df.cols := List.mem_of_find?_eq_some hf
    cases h
    obtain ⟨p1, p2⟩ := p
    simp only [beq_iff_eq] at hp
    cases hp
    exact hm

theorem getCol_isSome (df : DataFrame) (c : String)
    (h : c ∈ df.colNames) : ∃ col, getCol df c = some col := by
  unfold DataFrame.colNames at h
  obtain ⟨p, hp, hpc⟩ := List.mem_map.mp h
  have : (df.cols.find? (fun q => q.1 == c)).isSome := by
    rw [List.find?_isSome]
    exact ⟨p, hp, by simp [hpc]⟩
  obtain ⟨q, hq⟩ := Option.isSome_iff_exists.mp this
  exact ⟨q.2, by simp [getCol, hq]⟩

theorem colLoop_ok (env : SynEnv) (tid out_path : String) (df : DataFrame)
    (dl : Nat) (column_names : List String)
    (hWF : ∀ p ∈ df.cols, p.2.length = df.nRows)
    (hpres : ∀ c ∈ column_names, c ∈ df.colNames)
    (hdl : dl ≤ df.nRows) :
    colLoop env tid out_path df dl column_names =
      Except.ok (colFilesSpec env tid out_path df dl column_names,
        colOpsSpec tid out_path df dl column_names) := by
  induction column_names with
  | nil => rfl
  | cons c rest ih =>
    obtain ⟨col, hcol⟩ :=
      getCol_isSome df c (hpres c (List.mem_cons_self c rest))
    have hlen : col.length = df.nRows := hWF _ (getCol_mem df c col hcol)
    have hb : ∀ i ∈ List.range dl, i < col.length := by
      intro i hi
      rw [hlen]
      exact lt_of_lt_of_le (List.mem_range.mp hi) hdl
    have hrow := rowLoop_ok env tid c out_path col (List.range dl) hb
    have hrest := ih (fun c' h' => hpres c' (List.mem_cons_of_mem c h'))
    simp [colLoop, hcol, hrow, hrest, colFilesSpec, colOpsSpec, getColD]

theorem colLoop_length (env : SynEnv) (tid out_path : String)
    (df : DataFrame) (dl : Nat) (column_names : List String)
    (ess : List (List (Option String))) (ops : List SynOp)
    (h : colLoop env tid out_path df dl column_names =
      Except.ok (ess, ops)) :
    ess.length = column_names.length ∧ ∀ es ∈ ess, es.length = dl := by
  induction column_names generalizing ess ops with
  | nil =>
    simp only [colLoop] at h
    cases h
    simp
  | cons c rest ih =>
    rw [colLoop] at h
    cases hg : getCol df c with
    | none => rw [hg] at h; cases h
    | some col =>
      simp only [hg] at h
      cases hr : rowLoop env tid c out_path col (List.range dl) with
      | error e => simp [hr] at h
      | ok pr₁ =>
        obtain ⟨es, ops₁⟩ := pr₁
        simp only [hr] at h
        cases hc2 : colLoop env tid out_path df dl rest with
        | error e => simp [hc2] at h
        | ok pr₂ =>
          obtain ⟨ess₂, ops₂⟩ := pr₂
          simp only [hc2] at h
          cases h
          have hes : es.length = dl := by
            simpa using rowLoop_length env tid c out_path col _ _ _ hr
          obtain ⟨ih1, ih2⟩ := ih _ _ hc2
          refine ⟨by simp [ih1], ?_⟩
          intro es' hes'
          rcases List.mem_cons.mp hes' with h1 | h2
          · rw [h1]; exact hes
          · exact ih2 es' h2

/-- Full characterisation of a successful `read_synapse_table_files` call:
the query result is returned unchanged together with one entry sequence per
requested column, and the trace is login/get/query followed by the download
calls of the loop. -/
theorem read_ok (env : SynEnv) (tid : String) (column_names : List String)
    (download_limit : PyVal) (out_path username password : String)
    (df : DataFrame) (hdf : env.tables tid = some df)
    (hWF : ∀ p ∈ df.cols, p.2.length = df.nRows)
    (hpres : ∀ c ∈ column_names, c ∈ df.colNames)
    (hdl : (effectiveLimit download_limit df.nRows).toNat ≤ df.nRows) :
    read_synapse_table_files env tid column_names download_limit out_path
        username password =
      Except.ok ((df, colFilesSpec env tid out_path df
          (effectiveLimit download_limit df.nRows).toNat column_names),
        [loginOp username password, SynOp.get tid,
         SynOp.tableQuery ("select * from " ++ tid)] ++
        colOpsSpec tid out_path df
          (effectiveLimit download_limit df.nRows).toNat column_names) := by
  have hcl := colLoop_ok env tid out_path df
    (effectiveLimit download_limit df.nRows).toNat column_names hWF hpres hdl
  cases column_names with
  | nil => simp [read_synapse_table_files, hdf, colFilesSpec, colOpsSpec]
  | cons c rest =>
    simp [read_synapse_table_files, hdf, hcl]

/-- On any successful `read_synapse_table_files` call, the downloaded-files
result has one sequence per requested column, each of length
`(effectiveLimit download_limit nRows).toNat`. -/
theorem read_files_length (env : SynEnv) (tid : String)
    (column_names : List String) (download_limit : PyVal)
    (out_path username password : String) (df td : DataFrame)
    (files : List (List (Option String))) (ops : List SynOp)
    (hdf : env.tables tid = some df)
    (h : read_synapse_table_files env tid column_names download_limit
        out_path username password = Except.ok ((td, files), ops)) :
    files.length = column_names.length ∧
      ∀ l ∈ files, l.length =
        (effectiveLimit download_limit df.nRows).toNat := by
  rw [read_synapse_table_files.eq_def, hdf] at h
  cases column_names with
  | nil =>
    simp only [List.isEmpty_nil, if_true] at h
    cases h
    simp
  | cons c rest =>
    simp only [List.isEmpty_cons, if_false, Bool.false_eq_true] at h
    cases hc : colLoop env tid out_path df
        (effectiveLimit download_limit df.nRows).toNat (c :: rest) with
    | error e => rw [hc] at h; cases h
    | ok pr =>
      obtain ⟨dfl, ops₁⟩ := pr
      rw [hc] at h
      cases h
      exact colLoop_length env tid out_path df _ _ _ _ hc

/-! ### Trace predicates and concrete instances -/

/-- Is this remote call a file download? -/
def SynOp.isDownload : SynOp → Bool
  | SynOp.downloadFile _ _ _ _ => true
  | _ => false

/-- Is this remote call a schema creation (a new remote table)? -/
def SynOp.isStoreSchema : SynOp → Bool
  | SynOp.storeSchema _ _ _ => true
  | _ => false

/-- Is this remote call a row-set store? -/
def SynOp.isStoreRowSet : SynOp → Bool
  | SynOp.storeRowSet _ _ => true
  | _ => false

/-- Is this remote call a raw file upload? -/
def SynOp.isUpload : SynOp → Bool
  | SynOp.uploadFile _ => true
  | _ => false

theorem isDownload_loginOp (u p : String) :
    (loginOp u p).isDownload = false := by
  unfold loginOp
  split <;> rfl

theorem isUpload_loginOp (u p : String) :
    (loginOp u p).isUpload = false := by
  unfold loginOp
  split <;> rfl

theorem isStoreSchema_loginOp (u p : String) :
    (loginOp u p).isStoreSchema = false := by
  unfold loginOp
  split <;> rfl

theorem isStoreRowSet_loginOp (u p : String) :
    (loginOp u p).isStoreRowSet = false := by
  unfold loginOp
  split <;> rfl

instance instDecEqExcept {ε α : Type} [DecidableEq ε] [DecidableEq α] :
    DecidableEq (Except ε α) := fun x y =>
  match x, y with
  | Except.ok a, Except.ok b =>
    if h : a = b then isTrue (by rw [h])
    else isFalse (by intro hh; cases hh; exact h rfl)
  | Except.error e, Except.error f =>
    if h : e = f then isTrue (by rw [h])
    else isFalse (by intro hh; cases hh; exact h rfl)
  | Except.ok _, Except.error _ => isFalse (by intro hh; cases hh)
  | Except.error _, Except.ok _ => isFalse (by intro hh; cases hh)

/-- A concrete two-row table: file column `A` (first row missing, second
row a file ID) and value column `B`. -/
def dfW : DataFrame :=
  { cols := [("A", [Cell.nan, Cell.int 5]),
             ("B", [Cell.str "x", Cell.str "y"])]
    index := [0, 1] }

/-- A concrete environment: one table `T` with contents `dfW`, downloads
that always report a file, uploads with deterministic handle IDs. -/
def envW : SynEnv :=
  { tables := fun tid => if tid = "T" then some dfW else Option.none
    downloadTableFile := fun _ irow _ _ =>
      some ("f" ++ toString irow ++ ".wav")
    uploadHandle := fun f => "h-" ++ f }

/-- A one-row, one-column frame whose row index is `[1]`, not 0-based. -/
def dfB1 : DataFrame := { cols := [("A", [Cell.int 0])], index := [1] }

/-- A second one-row frame sharing `dfB1`'s row index. -/
def dfB2 : DataFrame := { cols := [("B", [Cell.int 1])], index := [1] }

/-! ### Claim theorems -/

/-- C9: for every table, `read_synapse_table_files` called with an empty
`column_names` list returns the full queried dataset together with an empty
list of downloaded-file sequences, and its trace contains no file
download. -/
theorem read_empty_file_columns (env : SynEnv) (tid : String)
    (download_limit : PyVal) (out_path username password : String)
    (df : DataFrame) (hdf : env.tables tid = some df) :
    read_synapse_table_files env tid [] download_limit out_path username
        password =
      Except.ok ((df, []),
        [loginOp username password, SynOp.get tid,
         SynOp.tableQuery ("select * from " ++ tid)]) ∧
    ∀ op ∈ [loginOp username password, SynOp.get tid,
        SynOp.tableQuery ("select * from " ++ tid)],
      op.isDownload = false := by
  refine ⟨by simp [read_synapse_table_files, hdf], ?_⟩
  intro op hop
  rcases List.mem_cons.mp hop with h | hop
  · rw [h]; exact isDownload_loginOp username password
  rcases List.mem_cons.mp hop with h | hop
  · rw [h]; rfl
  rcases List.mem_cons.mp hop with h | hop
  · rw [h]; rfl
  · cases hop

/-- C9 witness. -/
theorem read_empty_file_columns_witness :
    read_synapse_table_files envW "T" [] PyVal.none "." "" "" =
      Except.ok ((dfW, []),
        [loginOp "" "", SynOp.get "T",
         SynOp.tableQuery ("select * from " ++ "T")]) ∧
    ∀ op ∈ [loginOp "" "", SynOp.get "T",
        SynOp.tableQuery ("select * from " ++ "T")],
      op.isDownload = false :=
  read_empty_file_columns envW "T" PyVal.none "." "" "" dfW (by decide)

/-- C10: every `download_limit` that is not exactly of integer type —
`None`, floats, booleans, strings — is silently replaced by the dataset's
actual row count, so the call behaves exactly as with `download_limit =
None` (all rows); only an exact `int` bounds the loop. -/
theorem download_limit_non_int_is_all_rows (env : SynEnv) (tid : String)
    (column_names : List String) (download_limit : PyVal)
    (out_path username password : String) (nrows : Nat)
    (h : download_limit.isIntType = false) :
    effectiveLimit download_limit nrows = (nrows : Int) ∧
    read_synapse_table_files env tid column_names download_limit out_path
        username password =
      read_synapse_table_files env tid column_names PyVal.none out_path
        username password := by
  cases download_limit with
  | int n => exact absurd h (by simp [PyVal.isIntType])
  | none => exact ⟨rfl, rfl⟩
  | float q => exact ⟨rfl, rfl⟩
  | bool b => exact ⟨rfl, rfl⟩
  | str s => exact ⟨rfl, rfl⟩

/-- C10 witness. -/
theorem download_limit_non_int_is_all_rows_witness :
    effectiveLimit (PyVal.str "all") 2 = (2 : Int) ∧
    read_synapse_table_files envW "T" ["A"] (PyVal.str "all") "." "" "" =
      read_synapse_table_files envW "T" ["A"] PyVal.none "." "" "" :=
  download_limit_non_int_is_all_rows envW "T" ["A"] (PyVal.str "all") "."
    "" "" 2 (by decide)

/-- C8: `copy_synapse_table` with `remove_columns = []` produces a dataset
whose column set is identical to the source query result (the removal step
is the identity for an empty removal list). -/
theorem copy_empty_remove_columns (env : SynEnv)
    (tid pid table_name username password : String) (df : DataFrame)
    (hdf : env.tables tid = some df) :
    copy_synapse_table env tid pid table_name [] username password =
      Except.ok ((reindexDf df, table_name, pid),
        [loginOp username password,
         SynOp.tableQuery ("select * from " ++ tid),
         SynOp.storeTable table_name pid (as_table_columns (reindexDf df))
           (some false) (reindexDf df)]) ∧
    (reindexDf df).colNames = df.colNames := by
  exact ⟨by simp [copy_synapse_table, hdf], rfl⟩

/-- C8 witness. -/
theorem copy_empty_remove_columns_witness :
    copy_synapse_table envW "T" "P" "nm" [] "" "" =
      Except.ok ((reindexDf dfW, "nm", "P"),
        [loginOp "" "",
         SynOp.tableQuery ("select * from " ++ "T"),
         SynOp.storeTable "nm" "P" (as_table_columns (reindexDf dfW))
           (some false) (reindexDf dfW)]) ∧
    (reindexDf dfW).colNames = dfW.colNames :=
  copy_empty_remove_columns envW "T" "P" "nm" "" "" dfW (by decide)

/-- C7: the download loop checks row positions only against the (integer)
`download_limit`; for every integer `0 ≤ n ≤` the dataset's actual row
count, every per-row cell access is within bounds and the out-of-bounds
error branch is unreachable — the whole call succeeds. -/
theorem row_accesses_in_bounds (env : SynEnv) (tid : String)
    (column_names : List String) (out_path username password : String)
    (df : DataFrame) (n : Int) (hdf : env.tables tid = some df)
    (hWF : ∀ p ∈ df.cols, p.2.length = df.nRows)
    (hpres : ∀ c ∈ column_names, c ∈ df.colNames)
    (_h0 : 0 ≤ n) (hn : n.toNat ≤ df.nRows) :
    ∃ r, read_synapse_table_files env tid column_names (PyVal.int n)
      out_path username password = Except.ok r := by
  refine ⟨_, read_ok env tid column_names (PyVal.int n) out_path username
    password df hdf hWF hpres ?_⟩
  simpa [effectiveLimit] using hn

/-- C7 witness. -/
theorem row_accesses_in_bounds_witness :
    (0 : Int) ≤ 1 ∧
    ∃ r, read_synapse_table_files envW "T" ["A"] (PyVal.int 1) "." "" "" =
      Except.ok r :=
  ⟨by decide,
   row_accesses_in_bounds envW "T" ["A"] "." "" "" dfW 1 (by decide)
     (by decide) (by decide) (by decide) (by decide)⟩

theorem isUpload_filter_map (l : List String) :
    (l.map SynOp.uploadFile).filter (fun op => op.isUpload) =
      l.map SynOp.uploadFile := by
  induction l with
  | nil => rfl
  | cons f rest ih => simp [SynOp.isUpload, ih]

theorem isStoreSchema_filter_map (l : List String) :
    (l.map SynOp.uploadFile).filter (fun op => op.isStoreSchema) = [] := by
  induction l with
  | nil => rfl
  | cons f rest ih => simp [SynOp.isStoreSchema, ih]

theorem isStoreRowSet_filter_map (l : List String) :
    (l.map SynOp.uploadFile).filter (fun op => op.isStoreRowSet) = [] := by
  induction l with
  | nil => rfl
  | cons f rest ih => simp [SynOp.isStoreRowSet, ih]

/-- C4: `files_to_synapse_table` with `N` input paths uploads each path in
order, creates exactly one new remote table whose schema has the single
`FILEHANDLEID` column named `column_name`, and stores exactly one row set
holding `N` rows — one per file handle, in input order. -/
theorem files_table_shape (env : SynEnv) (in_files : List String)
    (pid table_name column_name username password : String) :
    (files_to_synapse_table env in_files pid table_name column_name
        username password).filter (fun op => op.isUpload) =
      in_files.map SynOp.uploadFile ∧
    (files_to_synapse_table env in_files pid table_name column_name
        username password).filter (fun op => op.isStoreSchema) =
      [SynOp.storeSchema table_name [⟨column_name, "FILEHANDLEID"⟩] pid] ∧
    (files_to_synapse_table env in_files pid table_name column_name
        username password).filter (fun op => op.isStoreRowSet) =
      [SynOp.storeRowSet [⟨column_name, "FILEHANDLEID"⟩]
        (in_files.map (fun f => [env.uploadHandle f]))] ∧
    (in_files.map (fun f => [env.uploadHandle f])).length =
      in_files.length := by
  have e₁ : (SynOp.storeSchema table_name [⟨column_name, "FILEHANDLEID"⟩]
      pid).isUpload = false := rfl
  have e₂ : (SynOp.storeRowSet [⟨column_name, "FILEHANDLEID"⟩]
      (in_files.map (fun f => [env.uploadHandle f]))).isUpload = false := rfl
  have e₃ : (SynOp.storeSchema table_name [⟨column_name, "FILEHANDLEID"⟩]
      pid).isStoreSchema = true := rfl
  have e₄ : (SynOp.storeRowSet [⟨column_name, "FILEHANDLEID"⟩]
      (in_files.map (fun f => [env.uploadHandle f]))).isStoreSchema =
      false := rfl
  have e₅ : (SynOp.storeSchema table_name [⟨column_name, "FILEHANDLEID"⟩]
      pid).isStoreRowSet = false := rfl
  have e₆ : (SynOp.storeRowSet [⟨column_name, "FILEHANDLEID"⟩]
      (in_files.map (fun f => [env.uploadHandle f]))).isStoreRowSet =
      true := rfl
  refine ⟨?_, ?_, ?_, by simp⟩ <;>
    simp only [files_to_synapse_table, List.filter_append, List.filter_cons,
      isUpload_loginOp, isStoreSchema_loginOp, isStoreRowSet_loginOp,
      isUpload_filter_map, isStoreSchema_filter_map,
      isStoreRowSet_filter_map, e₁, e₂, e₃, e₄, e₅, e₆,
      Bool.false_eq_true, if_false, if_true, List.nil_append,
      List.cons_append, List.filter_nil, List.append_nil]

/-- C5: two datasets with `K1` and `K2` columns, the same row count `R` and
a shared row index are concatenated into one dataset with `K1 + K2` columns
and `R` rows by `concatenate_tables_to_synapse_table`. -/
theorem concatenate_shape (df₁ df₂ : DataFrame)
    (pid table_name username password : String)
    (hidx : df₁.index = df₂.index) :
    ((concatenate_tables_to_synapse_table [df₁, df₂] pid table_name
        username password).1.1).colNames.length =
      df₁.colNames.length + df₂.colNames.length ∧
    ((concatenate_tables_to_synapse_table [df₁, df₂] pid table_name
        username password).1.1).nRows = df₁.nRows ∧
    df₂.nRows = df₁.nRows := by
  have hfilter : df₂.index.filter (fun y => decide (y ∉ df₁.index)) = [] := by
    rw [List.filter_eq_nil_iff]
    intro a ha
    simp [hidx ▸ ha]
  have hcat : concatIndex [df₁, df₂] = df₁.index := by
    simp [concatIndex, indexUnion, hidx, hfilter]
  refine ⟨?_, ?_, by simp [DataFrame.nRows, hidx]⟩
  · simp [concatenate_tables_to_synapse_table, pdConcat,
      DataFrame.colNames, Function.comp]
  · simp [concatenate_tables_to_synapse_table, pdConcat, DataFrame.nRows,
      hcat, hidx]

/-- C5 witness. -/
theorem concatenate_shape_witness :
    ((concatenate_tables_to_synapse_table [dfB1, dfB2] "P" "N" "" "").1.1
        ).colNames.length = dfB1.colNames.length + dfB2.colNames.length ∧
    ((concatenate_tables_to_synapse_table [dfB1, dfB2] "P" "N" "" "").1.1
        ).nRows = dfB1.nRows ∧
    dfB2.nRows = dfB1.nRows :=
  concatenate_shape dfB1 dfB2 "P" "N" "" "" (by decide)

/-- C1: in a successful `read_synapse_table_files` call with file columns,
for requested column `c` (position `j`) and row position `irow` below the
row bound: a missing-marker cell records `None` (never a path or `''`);
any other cell triggers a download into `out_path`, recording the returned
local path, or `''` exactly when the download call reports no file info. -/
theorem read_file_entries_correct (env : SynEnv) (tid : String)
    (column_names : List String) (download_limit : PyVal)
    (out_path username password : String) (df td : DataFrame)
    (files : List (List (Option String))) (ops : List SynOp)
    (j irow : Nat) (c : String) (col : List Cell)
    (hdf : env.tables tid = some df)
    (hWF : ∀ p ∈ df.cols, p.2.length = df.nRows)
    (hpres : ∀ c' ∈ column_names, c' ∈ df.colNames)
    (hdl : (effectiveLimit download_limit df.nRows).toNat ≤ df.nRows)
    (hread : read_synapse_table_files env tid column_names download_limit
        out_path username password = Except.ok ((td, files), ops))
    (hj : column_names[j]? = some c)
    (hcol : getCol df c = some col)
    (hirow : irow < (effectiveLimit download_limit df.nRows).toNat) :
    ∃ seq, files[j]? = some seq ∧
      (col[irow]? = some Cell.nan → seq[irow]? = some Option.none) ∧
      (∀ cell, col[irow]? = some cell → cell ≠ Cell.nan →
        SynOp.downloadFile tid irow c out_path ∈ ops ∧
        (∀ pa, env.downloadTableFile tid irow c out_path = some pa →
          seq[irow]? = some (some pa)) ∧
        (env.downloadTableFile tid irow c out_path = Option.none →
          seq[irow]? = some (some ""))) := by
  have hro := read_ok env tid column_names download_limit out_path username
    password df hdf hWF hpres hdl
  rw [hro] at hread
  simp only [Except.ok.injEq, Prod.mk.injEq] at hread
  obtain ⟨⟨htd, hfiles⟩, hops⟩ := hread
  subst hfiles hops
  have hgd : getColD df c = col := by simp [getColD, hcol]
  have hc_mem : c ∈ column_names := by
    have := List.getElem?_eq_some_iff.mp hj
    obtain ⟨hjlt, hget⟩ := this
    exact hget ▸ List.getElem_mem hjlt
  refine ⟨(List.range (effectiveLimit download_limit df.nRows).toNat).map
      (entrySpec env tid c out_path col), ?_, ?_, ?_⟩
  · simp [colFilesSpec, List.getElem?_map, hj, hgd]
  · intro hnan
    have hseq : ((List.range
        (effectiveLimit download_limit df.nRows).toNat).map
        (entrySpec env tid c out_path col))[irow]? =
          some (entrySpec env tid c out_path col irow) := by
      simp [List.getElem?_map, List.getElem?_range, hirow]
    rw [hseq]
    simp [entrySpec, hnan]
  · intro cell hcell hne
    have hseq : ((List.range
        (effectiveLimit download_limit df.nRows).toNat).map
        (entrySpec env tid c out_path col))[irow]? =
          some (entrySpec env tid c out_path col irow) := by
      simp [List.getElem?_map, List.getElem?_range, hirow]
    refine ⟨?_, ?_, ?_⟩
    · refine List.mem_append_right _ ?_
      unfold colOpsSpec
      refine List.mem_flatMap.mpr ⟨c, hc_mem, ?_⟩
      refine List.mem_filterMap.mpr ⟨irow, List.mem_range.mpr hirow, ?_⟩
      rw [hgd]
      rcases cell with _ | s | n
      · exact absurd rfl hne
      · simp [dlOpSpec, hcell]
      · simp [dlOpSpec, hcell]
    · intro pa hpa
      rw [hseq]
      rcases cell with _ | s | n
      · exact absurd rfl hne
      · simp [entrySpec, hcell, hpa]
      · simp [entrySpec, hcell, hpa]
    · intro hno
      rw [hseq]
      rcases cell with _ | s | n
      · exact absurd rfl hne
      · simp [entrySpec, hcell, hno]
      · simp [entrySpec, hcell, hno]

/-- C1 witness. -/
theorem read_file_entries_correct_witness :
    ∃ seq, ([[Option.none, some "f1.wav"]] :
        List (List (Option String)))[0]? = some seq ∧
      (([Cell.nan, Cell.int 5] : List Cell)[1]? = some Cell.nan →
        seq[1]? = some Option.none) ∧
      (∀ cell, ([Cell.nan, Cell.int 5] : List Cell)[1]? = some cell →
        cell ≠ Cell.nan →
        SynOp.downloadFile "T" 1 "A" "." ∈
          [SynOp.login, SynOp.get "T",
           SynOp.tableQuery ("select * from " ++ "T"),
           SynOp.downloadFile "T" 1 "A" "."] ∧
        (∀ pa, envW.downloadTableFile "T" 1 "A" "." = some pa →
          seq[1]? = some (some pa)) ∧
        (envW.downloadTableFile "T" 1 "A" "." = Option.none →
          seq[1]? = some (some ""))) :=
  read_file_entries_correct envW "T" ["A"] PyVal.none "." "" "" dfW dfW
    [[Option.none, some "f1.wav"]]
    [SynOp.login, SynOp.get "T",
     SynOp.tableQuery ("select * from " ++ "T"),
     SynOp.downloadFile "T" 1 "A" "."]
    0 1 "A" [Cell.nan, Cell.int 5] (by decide) (by decide) (by decide)
    (by decide) (by decide) (by decide) (by decide) (by decide)

/-- C3 counterexample: with `row_limit = -1` (an integer) on a non-empty
table with one requested file column, the call succeeds and the returned
sequence has length `0`, not `row_limit`: `range(-1)` is empty. -/
theorem read_negative_limit_counterexample :
    read_synapse_table_files envW "T" ["A"] (PyVal.int (-1)) "." "" "" =
      Except.ok ((dfW, [[]]),
        [SynOp.login, SynOp.get "T",
         SynOp.tableQuery ("select * from " ++ "T")]) ∧
    ¬((([] : List (Option String)).length : Int) = -1) :=
  ⟨by decide, by decide⟩

/-- C3 (amended): a successful call returns exactly one sequence per
requested file column; each sequence has length `row_limit` when
`row_limit` is a **nonnegative** integer, length `0` for a negative
integer (`range` of a negative bound is empty), and length equal to the
dataset's actual row count when `row_limit` is not exactly an integer
(including `None`). -/
theorem read_result_shape (env : SynEnv) (tid : String)
    (column_names : List String) (download_limit : PyVal)
    (out_path username password : String) (df td : DataFrame)
    (files : List (List (Option String))) (ops : List SynOp)
    (hdf : env.tables tid = some df)
    (hread : read_synapse_table_files env tid column_names download_limit
        out_path username password = Except.ok ((td, files), ops)) :
    files.length = column_names.length ∧
    (∀ l ∈ files, l.length =
      (effectiveLimit download_limit df.nRows).toNat) ∧
    (∀ n : Int, download_limit = PyVal.int n → 0 ≤ n →
      ∀ l ∈ files, (l.length : Int) = n) ∧
    (download_limit = PyVal.none → ∀ l ∈ files, l.length = df.nRows) := by
  obtain ⟨h1, h2⟩ := read_files_length env tid column_names download_limit
    out_path username password df td files ops hdf hread
  refine ⟨h1, h2, ?_, ?_⟩
  · intro n hn h0 l hl
    subst hn
    rw [h2 l hl]
    simp [effectiveLimit, Int.toNat_of_nonneg h0]
  · intro hn l hl
    subst hn
    simpa [effectiveLimit] using h2 l hl

/-- C3 witness. -/
theorem read_result_shape_witness :
    ([[Option.none, some "f1.wav"]] :
        List (List (Option String))).length = (["A"] : List String).length ∧
    (∀ l ∈ ([[Option.none, some "f1.wav"]] :
        List (List (Option String))), l.length =
      (effectiveLimit PyVal.none dfW.nRows).toNat) ∧
    (∀ n : Int, PyVal.none = PyVal.int n → 0 ≤ n →
      ∀ l ∈ ([[Option.none, some "f1.wav"]] :
        List (List (Option String))), (l.length : Int) = n) ∧
    (PyVal.none = PyVal.none →
      ∀ l ∈ ([[Option.none, some "f1.wav"]] :
        List (List (Option String))), l.length = dfW.nRows) :=
  read_result_shape envW "T" ["A"] PyVal.none "." "" "" dfW dfW
    [[Option.none, some "f1.wav"]]
    [SynOp.login, SynOp.get "T",
     SynOp.tableQuery ("select * from " ++ "T"),
     SynOp.downloadFile "T" 1 "A" "."] (by decide) (by decide)

theorem reindexDf_index (df : DataFrame) :
    (reindexDf df).index =
      (List.range (reindexDf df).nRows).map Int.ofNat := by
  simp [reindexDf, DataFrame.nRows]

/-- C2 counterexample: `concatenate_tables_to_synapse_table` hands the
concatenated dataset to the store call with its row index `[1]` unchanged —
not renumbered to the contiguous 0-based sequence `[0]`. -/
theorem concatenate_no_reindex_counterexample :
    SynOp.storeTable "N" "P" (as_table_columns (pdConcat [dfB1, dfB2]))
        Option.none (pdConcat [dfB1, dfB2]) ∈
      (concatenate_tables_to_synapse_table [dfB1, dfB2] "P" "N" "" "").2 ∧
    (pdConcat [dfB1, dfB2]).index = [(1 : Int)] ∧
    ¬(pdConcat [dfB1, dfB2]).index =
      (List.range (pdConcat [dfB1, dfB2]).nRows).map Int.ofNat :=
  ⟨by decide, by decide, by decide⟩

/-- C2 (amended): `copy_synapse_table` and `write_synapse_table` renumber
the row index to the contiguous 0-based sequence `0 .. N-1` before the
store call; `concatenate_tables_to_synapse_table` does **not** renumber —
it stores the concatenated dataset with the row index produced by the
index-aligned concatenation. -/
theorem reindex_before_store (env : SynEnv) (tid pid table_name : String)
    (remove_columns : List String) (username password : String)
    (table_data : DataFrame) (frames : List DataFrame) :
    (∀ td tn2 pid2 ops,
      copy_synapse_table env tid pid table_name remove_columns username
          password = Except.ok ((td, tn2, pid2), ops) →
      td.index = (List.range td.nRows).map Int.ofNat ∧
      SynOp.storeTable table_name pid (as_table_columns td) (some false)
        td ∈ ops) ∧
    (write_synapse_table table_data pid table_name username password =
      [loginOp username password,
       SynOp.storeTable table_name pid
         (as_table_columns (reindexDf table_data)) (some false)
         (reindexDf table_data)] ∧
     (reindexDf table_data).index =
       (List.range (reindexDf table_data).nRows).map Int.ofNat) ∧
    (concatenate_tables_to_synapse_table frames pid table_name username
        password =
      ((pdConcat frames, pid),
       [loginOp username password,
        SynOp.storeTable table_name pid (as_table_columns (pdConcat frames))
          Option.none (pdConcat frames)])) := by
  refine ⟨?_, ⟨rfl, reindexDf_index table_data⟩, rfl⟩
  intro td tn2 pid2 ops h
  rw [copy_synapse_table.eq_def] at h
  cases hdf : env.tables tid with
  | none => rw [hdf] at h; cases h
  | some df₀ =>
    rw [hdf] at h
    cases hdel : (if remove_columns.isEmpty then Except.ok df₀
        else remove_columns.foldlM delColumn df₀) with
    | error e =>
      simp only [hdel] at h
      cases h
    | ok td₀ =>
      simp only [hdel, Except.ok.injEq, Prod.mk.injEq] at h
      obtain ⟨⟨h1, h2, h3⟩, h4⟩ := h
      subst h1
      subst h4
      exact ⟨reindexDf_index td₀, by simp⟩

/-- C2 witness (for the copy conjunct, at a concrete table). -/
theorem reindex_before_store_witness :
    (reindexDf dfW).index =
      (List.range (reindexDf dfW).nRows).map Int.ofNat ∧
    SynOp.storeTable "nm" "P" (as_table_columns (reindexDf dfW))
        (some false) (reindexDf dfW) ∈
      [loginOp "" "", SynOp.tableQuery ("select * from " ++ "T"),
       SynOp.storeTable "nm" "P" (as_table_columns (reindexDf dfW))
         (some false) (reindexDf dfW)] :=
  (reindex_before_store envW "T" "P" "nm" [] "" "" dfW []).1
    (reindexDf dfW) "nm" "P"
    [loginOp "" "", SynOp.tableQuery ("select * from " ++ "T"),
     SynOp.storeTable "nm" "P" (as_table_columns (reindexDf dfW))
       (some false) (reindexDf dfW)] (by decide)

theorem any_fst_eq (df : DataFrame) (a : String) :
    df.cols.any (fun p => p.1 == a) = true ↔ a ∈ df.colNames := by
  simp [DataFrame.colNames, List.any_eq_true]

theorem getCol_eq_none (df : DataFrame) (a : String)
    (h : a ∉ df.colNames) : getCol df a = Option.none := by
  cases hg : getCol df a with
  | none => rfl
  | some col =>
    exact absurd (List.mem_map_of_mem Prod.fst (getCol_mem df a col hg)) h

theorem delColumn_ok (df : DataFrame) (a : String) (h : a ∈ df.colNames) :
    delColumn df a =
      Except.ok { df with cols := df.cols.filter (fun p => p.1 != a) } := by
  simp [delColumn, (any_fst_eq df a).mpr h]

theorem delColumn_err (df : DataFrame) (a : String) (h : a ∉ df.colNames) :
    delColumn df a = Except.error (SynError.keyError a) := by
  have hb : df.cols.any (fun p => p.1 == a) = false :=
    Bool.eq_false_iff.mpr (fun hh => h ((any_fst_eq df a).mp hh))
  simp [delColumn, hb]

theorem map_fst_filter (l : List (String × List Cell)) (a : String) :
    (l.filter (fun p => p.1 != a)).map Prod.fst =
      (l.map Prod.fst).filter (fun s => s != a) := by
  induction l with
  | nil => rfl
  | cons p rest ih =>
    by_cases h : p.1 = a <;> simp [List.filter_cons, h, ih]

theorem except_bind_ok {ε α β : Type} (a : α) (f : α → Except ε β) :
    (Except.ok a >>= f) = f a := rfl

theorem except_bind_err {ε α β : Type} (e : ε) (f : α → Except ε β) :
    ((Except.error e : Except ε α) >>= f) = Except.error e := rfl

theorem foldlM_delColumn_absent (cs : List String) (df : DataFrame)
    (h : ∃ c ∈ cs, c ∉ df.colNames) :
    ∃ c ∈ cs, cs.foldlM delColumn df =
      Except.error (SynError.keyError c) := by
  induction cs generalizing df with
  | nil => obtain ⟨c, hc, _⟩ := h; cases hc
  | cons a rest ih =>
    by_cases ha : a ∈ df.colNames
    · have hstep : (a :: rest).foldlM delColumn df =
          rest.foldlM delColumn
            { df with cols := df.cols.filter (fun p => p.1 != a) } := by
        simp [List.foldlM, delColumn_ok df a ha, except_bind_ok]
      obtain ⟨c, hc, hcn⟩ := h
      have hcrest : c ∈ rest := by
        rcases List.mem_cons.mp hc with rfl | hr
        · exact absurd ha hcn
        · exact hr
      have hcn' : c ∉ (DataFrame.mk
          (df.cols.filter (fun p => p.1 != a)) df.index).colNames := by
        intro hmem
        apply hcn
        have heq : (DataFrame.mk (df.cols.filter (fun p => p.1 != a))
            df.index).colNames = df.colNames.filter (fun s => s != a) :=
          map_fst_filter df.cols a
        rw [heq] at hmem
        exact (List.mem_filter.mp hmem).1
      obtain ⟨c', hc', herr⟩ := ih
        { df with cols := df.cols.filter (fun p => p.1 != a) }
        ⟨c, hcrest, hcn'⟩
      exact ⟨c', List.mem_cons_of_mem a hc', by rw [hstep]; exact herr⟩
    · exact ⟨a, List.mem_cons_self a rest, by
        simp [List.foldlM, delColumn_err df a ha, except_bind_err]⟩

theorem foldlM_delColumn_present (cs : List String) (df : DataFrame)
    (hpres : ∀ c ∈ cs, c ∈ df.colNames) (hnd : cs.Nodup) :
    ∃ df', cs.foldlM delColumn df = Except.ok df' := by
  induction cs generalizing df with
  | nil => exact ⟨df, rfl⟩
  | cons a rest ih =>
    have ha := hpres a (List.mem_cons_self a rest)
    have hstep : (a :: rest).foldlM delColumn df =
        rest.foldlM delColumn
          { df with cols := df.cols.filter (fun p => p.1 != a) } := by
      simp [List.foldlM, delColumn_ok df a ha, except_bind_ok]
    have hnd' := List.nodup_cons.mp hnd
    have hpres' : ∀ c ∈ rest, c ∈ (DataFrame.mk
        (df.cols.filter (fun p => p.1 != a)) df.index).colNames := by
      intro c hc
      have hcn : c ≠ a := fun hh => hnd'.1 (hh ▸ hc)
      have heq : (DataFrame.mk (df.cols.filter (fun p => p.1 != a))
          df.index).colNames = df.colNames.filter (fun s => s != a) :=
        map_fst_filter df.cols a
      rw [heq]
      exact List.mem_filter.mpr
        ⟨hpres c (List.mem_cons_of_mem a hc), by simp [hcn]⟩
    obtain ⟨dff, hff⟩ := ih
      { df with cols := df.cols.filter (fun p => p.1 != a) } hpres' hnd'.2
    exact ⟨dff, by rw [hstep]; exact hff⟩

theorem colLoop_absent (env : SynEnv) (tid out_path : String)
    (df : DataFrame) (dl : Nat) (names : List String)
    (hWF : ∀ p ∈ df.cols, p.2.length = df.nRows) (hdl : dl ≤ df.nRows)
    (h : ∃ c ∈ names, c ∉ df.colNames) :
    ∃ c ∈ names, c ∉ df.colNames ∧
      colLoop env tid out_path df dl names =
        Except.error (SynError.keyError c) := by
  induction names with
  | nil => obtain ⟨c, hc, _⟩ := h; cases hc
  | cons a rest ih =>
    by_cases ha : a ∈ df.colNames
    · obtain ⟨col, hcol⟩ := getCol_isSome df a ha
      have hlen : col.length = df.nRows := hWF _ (getCol_mem df a col hcol)
      have hb : ∀ i ∈ List.range dl, i < col.length := by
        intro i hi
        rw [hlen]
        exact lt_of_lt_of_le (List.mem_range.mp hi) hdl
      have hrow := rowLoop_ok env tid a out_path col (List.range dl) hb
      obtain ⟨c, hc, hcn⟩ := h
      have hcrest : c ∈ rest := by
        rcases List.mem_cons.mp hc with rfl | hr
        · exact absurd ha hcn
        · exact hr
      obtain ⟨c', hc', hcn', herr⟩ := ih ⟨c, hcrest, hcn⟩
      exact ⟨c', List.mem_cons_of_mem a hc', hcn',
        by simp [colLoop, hcol, hrow, herr]⟩
    · exact ⟨a, List.mem_cons_self a rest, ha,
        by simp [colLoop, getCol_eq_none df a ha]⟩

/-- C6 (amended): a named column absent from the queried dataset yields a
`KeyError`-class failure, both for `read_synapse_table_files`
(`file_columns`, with row accesses within bounds) and for
`copy_synapse_table` (`remove_columns`); when every named column is
present — and, for `copy_synapse_table`, the removal list has **no
duplicate names** (deleting a present name twice raises `KeyError` on the
second deletion) — the call succeeds with no such failure. -/
theorem missing_column_keyerror (env : SynEnv)
    (tid pid table_name : String)
    (column_names remove_columns : List String) (download_limit : PyVal)
    (out_path username password : String) (df : DataFrame)
    (hdf : env.tables tid = some df)
    (hWF : ∀ p ∈ df.cols, p.2.length = df.nRows)
    (hdl : (effectiveLimit download_limit df.nRows).toNat ≤ df.nRows) :
    ((∃ c ∈ column_names, c ∉ df.colNames) →
      ∃ c ∈ column_names, c ∉ df.colNames ∧
        read_synapse_table_files env tid column_names download_limit
          out_path username password =
          Except.error (SynError.keyError c)) ∧
    ((∃ c ∈ remove_columns, c ∉ df.colNames) →
      ∃ c ∈ remove_columns,
        copy_synapse_table env tid pid table_name remove_columns username
          password = Except.error (SynError.keyError c)) ∧
    ((∀ c ∈ column_names, c ∈ df.colNames) →
      ∃ r, read_synapse_table_files env tid column_names download_limit
        out_path username password = Except.ok r) ∧
    ((∀ c ∈ remove_columns, c ∈ df.colNames) → remove_columns.Nodup →
      ∃ r, copy_synapse_table env tid pid table_name remove_columns
        username password = Except.ok r) := by
  refine ⟨?_, ?_, ?_, ?_⟩
  · intro h
    obtain ⟨c, hc, hcn, herr⟩ := colLoop_absent env tid out_path df
      (effectiveLimit download_limit df.nRows).toNat column_names hWF hdl h
    refine ⟨c, hc, hcn, ?_⟩
    cases column_names with
    | nil => cases hc
    | cons a rest => simp [read_synapse_table_files, hdf, herr]
  · intro h
    obtain ⟨c, hc, herr⟩ := foldlM_delColumn_absent remove_columns df h
    refine ⟨c, hc, ?_⟩
    cases remove_columns with
    | nil => cases hc
    | cons a rest => simp [copy_synapse_table, hdf, herr]
  · intro h
    exact ⟨_, read_ok env tid column_names download_limit out_path
      username password df hdf hWF h hdl⟩
  · intro h hnd
    obtain ⟨df', hff⟩ := foldlM_delColumn_present remove_columns df h hnd
    have hsel : (if remove_columns.isEmpty then Except.ok df
        else remove_columns.foldlM delColumn df) = Except.ok df' := by
      cases remove_columns with
      | nil => simpa [pure, Except.pure] using hff
      | cons a rest => simpa using hff
    refine ⟨((reindexDf df', table_name, pid),
      [loginOp username password,
       SynOp.tableQuery ("select * from " ++ tid),
       SynOp.storeTable table_name pid (as_table_columns (reindexDf df'))
         (some false) (reindexDf df')]), ?_⟩
    rw [copy_synapse_table.eq_def, hdf]
    simp only [hsel]

/-- C6 counterexample: every name in `remove_columns = ["A", "A"]` is a
column of the table, yet `copy_synapse_table` fails with `KeyError` — the
first deletion removes column `A`, the second cannot find it. -/
theorem copy_duplicate_remove_counterexample :
    (["A", "A"].all (fun c => dfW.colNames.contains c)) = true ∧
    copy_synapse_table envW "T" "P" "nm" ["A", "A"] "" "" =
      Except.error (SynError.keyError "A") :=
  ⟨by decide, by decide⟩

/-- C6 witness. -/
theorem missing_column_keyerror_witness :
    ((∃ c ∈ ["A"], c ∉ dfW.colNames) →
      ∃ c ∈ ["A"], c ∉ dfW.colNames ∧
        read_synapse_table_files envW "T" ["A"] PyVal.none "." "" "" =
          Except.error (SynError.keyError c)) ∧
    ((∃ c ∈ ["B"], c ∉ dfW.colNames) →
      ∃ c ∈ ["B"],
        copy_synapse_table envW "T" "P" "nm" ["B"] "" "" =
          Except.error (SynError.keyError c)) ∧
    ((∀ c ∈ ["A"], c ∈ dfW.colNames) →
      ∃ r, read_synapse_table_files envW "T" ["A"] PyVal.none "." "" "" =
        Except.ok r) ∧
    ((∀ c ∈ ["B"], c ∈ dfW.colNames) → (["B"] : List String).Nodup →
      ∃ r, copy_synapse_table envW "T" "P" "nm" ["B"] "" "" =
        Except.ok r) :=
  missing_column_keyerror envW "T" "P" "nm" ["A"] ["B"] PyVal.none "."
    "" "" dfW (by decide) (by decide) (by decide)

end Mhealthx
